import Mathlib

/-!
Verification of the libFuzzer fuzzing-session engine
(src/clusterfuzz/_internal/bot/fuzzers/libFuzzer/engine.py).

The engine is embedded shallowly: every operation of the engine becomes a
pure Lean function over explicit state, external collaborators (the process
Runner, log parsers, the filesystem) become oracle fields of an `EngineExt`
record, and side effects that the claims talk about (merge invocations,
directory recreation, placeholder-file creation) are recorded in an event
trace returned alongside each result.  Python exceptions become `Except`
values; Python float durations become exact rationals represented by the
executable `Time` structure below.
-/

/-- Exact rational duration standing in for a Python float time value.
The represented value is `num / (den1 + 1)`, so the denominator is positive
by construction and every operation below is executable by the kernel. -/
structure Time where
  num : Int
  den1 : Nat
  deriving DecidableEq

/-- Denominator of a `Time`, always positive. -/
def Time.den (t : Time) : Int := (t.den1 : Int) + 1

/-- Embed an integer number of seconds. -/
def Time.ofInt (n : Int) : Time := ⟨n, 0⟩

/-- Exact subtraction of durations (cross multiplication; note that
`(a+1)*(b+1) = a*b + a + b + 1`, so the stored denominator part needs no
truncated subtraction). -/
def Time.sub (a b : Time) : Time :=
  ⟨a.num * b.den - b.num * a.den, a.den1 * b.den1 + a.den1 + b.den1⟩

/-- Exact addition of durations (cross multiplication). -/
def Time.add (a b : Time) : Time :=
  ⟨a.num * b.den + b.num * a.den, a.den1 * b.den1 + a.den1 + b.den1⟩

/-- Decidable test for `value <= 0`, as in the Python budget check. -/
def Time.nonpos (t : Time) : Bool := t.num ≤ 0

/-- Decidable test for `0 < value`. -/
def Time.pos (t : Time) : Bool := 0 < t.num

/-- Truncation toward zero, the semantics of Python `int()` on a float. -/
def Time.trunc (t : Time) : Int := t.num.tdiv t.den

/-- The rational value a `Time` represents. -/
def Time.toRat (t : Time) : Rat := (t.num : Rat) / (t.den : Rat)

/-- Value of `100 * ad / t`, the fuzzing-time-percent computation; exact
when `0 < t.num`. -/
def Time.percentOf (ad : Int) (t : Time) : Time :=
  ⟨100 * ad * t.den, (t.num - 1).toNat⟩

theorem Time.den_pos (t : Time) : (0 : Rat) < ((t.den : Int) : Rat) := by
  have : (0 : Int) < t.den := by
    unfold Time.den
    positivity
  exact_mod_cast this

theorem Time.den_sub (a b : Time) :
    (((a.sub b).den : Int) : Rat) = ((a.den : Int) : Rat) * ((b.den : Int) : Rat) := by
  unfold Time.sub Time.den
  push_cast
  ring

theorem Time.den_add (a b : Time) :
    (((a.add b).den : Int) : Rat) = ((a.den : Int) : Rat) * ((b.den : Int) : Rat) := by
  unfold Time.add Time.den
  push_cast
  ring

theorem Time.sub_toRat (a b : Time) : (a.sub b).toRat = a.toRat - b.toRat := by
  have ha := Time.den_pos a
  have hb := Time.den_pos b
  have hd := Time.den_sub a b
  unfold Time.toRat
  rw [hd]
  have hnum : (((a.sub b).num : Int) : Rat) =
      (a.num : Rat) * ((b.den : Int) : Rat) - (b.num : Rat) * ((a.den : Int) : Rat) := by
    unfold Time.sub
    push_cast
    ring
  rw [hnum]
  field_simp
  ring

theorem Time.add_toRat (a b : Time) : (a.add b).toRat = a.toRat + b.toRat := by
  have ha := Time.den_pos a
  have hb := Time.den_pos b
  have hd := Time.den_add a b
  unfold Time.toRat
  rw [hd]
  have hnum : (((a.add b).num : Int) : Rat) =
      (a.num : Rat) * ((b.den : Int) : Rat) + (b.num : Rat) * ((a.den : Int) : Rat) := by
    unfold Time.add
    push_cast
    ring
  rw [hnum]
  field_simp
  try ring

theorem Time.nonpos_iff (t : Time) : t.nonpos = true ↔ t.toRat ≤ 0 := by
  unfold Time.nonpos Time.toRat
  have hd := Time.den_pos t
  rw [decide_eq_true_iff]
  constructor
  · intro h
    apply div_nonpos_of_nonpos_of_nonneg
    · exact_mod_cast h
    · exact le_of_lt hd
  · intro h
    rcases div_nonpos_iff.mp h with ⟨_, h2⟩ | ⟨h1, _⟩
    · exact absurd hd (not_lt.mpr h2)
    · exact_mod_cast h1

theorem Time.pos_iff (t : Time) : t.pos = true ↔ 0 < t.toRat := by
  unfold Time.pos Time.toRat
  have hd := Time.den_pos t
  rw [decide_eq_true_iff]
  constructor
  · intro h
    exact div_pos (by exact_mod_cast h) hd
  · intro h
    by_contra hn
    push_neg at hn
    have h1 : ((t.num : Int) : Rat) ≤ 0 := by exact_mod_cast hn
    have h2 : (t.num : Rat) / ((t.den : Int) : Rat) ≤ 0 :=
      div_nonpos_of_nonpos_of_nonneg h1 (le_of_lt hd)
    exact absurd (lt_of_lt_of_le h h2) (lt_irrefl 0)

/-- Value stored in a statistics mapping: Python `None`, an int, a float
(modelled by `Time`), or a string. -/
inductive StatVal where
  | vnone
  | int (z : Int)
  | num (t : Time)
  | str (s : String)
  deriving DecidableEq

/-- A Python dict used as a statistics mapping, as an insertion-ordered
association list (first occurrence of a key is its binding). -/
abbrev Stats := List (String × StatVal)

/-- Python dict read `m.get(k)`. -/
def lookupStat : Stats → String → Option StatVal
  | [], _ => none
  | p :: rest, k => if p.1 == k then some p.2 else lookupStat rest k

/-- Python dict assignment `m[k] = v`: overwrite in place if the key is
present, append otherwise. -/
def setStat (m : Stats) (k : String) (v : StatVal) : Stats :=
  if m.any (fun p => p.1 == k) then m.map (fun p => if p.1 == k then (k, v) else p)
  else m ++ [(k, v)]

/-- Python `m.update(upd)`: assign every binding of `upd` in order. -/
def updateStats (m upd : Stats) : Stats :=
  upd.foldl (fun acc p => setStat acc p.1 p.2) m

/-- Read of an int-valued statistic `m[k]`; the merge flows below always
populate the keys read via this helper, hence the 0 fallback is inert. -/
def statIntD (m : Stats) (k : String) : Int :=
  match lookupStat m k with
  | some (.int z) => z
  | _ => 0

theorem lookupStat_cons (p : String × StatVal) (rest : Stats) (k : String) :
    lookupStat (p :: rest) k = if p.1 == k then some p.2 else lookupStat rest k := rfl

theorem lookupStat_append_none (m1 m2 : Stats) (k : String)
    (h : lookupStat m1 k = none) : lookupStat (m1 ++ m2) k = lookupStat m2 k := by
  induction m1 with
  | nil => simp
  | cons p rest ih =>
    by_cases hp : p.1 == k
    · rw [lookupStat_cons, if_pos hp] at h
      exact Option.noConfusion h
    · rw [lookupStat_cons, if_neg hp] at h
      rw [List.cons_append, lookupStat_cons, if_neg hp]
      exact ih h

theorem lookupStat_append_some (m1 m2 : Stats) (k : String) (v : StatVal)
    (h : lookupStat m1 k = some v) : lookupStat (m1 ++ m2) k = some v := by
  induction m1 with
  | nil => exact Option.noConfusion h
  | cons p rest ih =>
    rw [lookupStat_cons] at h
    rw [List.cons_append, lookupStat_cons]
    by_cases hp : p.1 == k
    · rw [if_pos hp] at h ⊢
      exact h
    · rw [if_neg hp] at h ⊢
      exact ih h

theorem lookupStat_setStat (m : Stats) (k : String) (v : StatVal) :
    lookupStat (setStat m k v) k = some v := by
  unfold setStat
  by_cases hm : m.any (fun p => p.1 == k)
  · rw [if_pos hm]
    induction m with
    | nil => simp at hm
    | cons p rest ih =>
      rw [List.map_cons]
      by_cases hp : p.1 == k
      · rw [if_pos hp, lookupStat_cons, if_pos (by simp)]
      · rw [if_neg hp, lookupStat_cons, if_neg hp]
        rw [List.any_cons] at hm
        exact ih (by simpa [hp] using hm)
  · rw [if_neg hm]
    have h1 : lookupStat m k = none := by
      induction m with
      | nil => rfl
      | cons p rest ih =>
        rw [List.any_cons] at hm
        simp only [Bool.or_eq_true, not_or] at hm
        rw [lookupStat_cons, if_neg hm.1]
        exact ih (by simpa using hm.2)
    rw [lookupStat_append_none _ _ _ h1, lookupStat_cons, if_pos (by simp)]

theorem lookupStat_setStat_ne (m : Stats) (k k' : String) (v : StatVal)
    (h : ¬ k = k') : lookupStat (setStat m k' v) k = lookupStat m k := by
  have hk : ¬ (k' == k) = true := by
    simp only [beq_iff_eq]
    intro hcon
    exact h hcon.symm
  unfold setStat
  by_cases hm : m.any (fun p => p.1 == k')
  · rw [if_pos hm]
    clear hm
    induction m with
    | nil => rfl
    | cons p rest ih =>
      rw [List.map_cons]
      by_cases hp : p.1 == k'
      · have hp' : p.1 = k' := by simpa using hp
        rw [if_pos hp, lookupStat_cons, lookupStat_cons]
        have hpk : ¬ (p.1 == k) = true := by
          rw [hp']
          exact hk
        rw [if_neg hk, if_neg hpk]
        exact ih
      · rw [if_neg hp, lookupStat_cons, lookupStat_cons]
        by_cases hpk : p.1 == k
        · rw [if_pos hpk, if_pos hpk]
        · rw [if_neg hpk, if_neg hpk]
          exact ih
  · rw [if_neg hm]
    cases hfind : lookupStat m k with
    | none =>
      rw [lookupStat_append_none _ _ _ hfind]
      rw [show lookupStat [(k', v)] k = if k' == k then some v else none from rfl]
      rw [if_neg hk]
    | some a => exact lookupStat_append_some _ _ _ _ hfind

theorem lookupStat_updateStats_ne (m : Stats) (upd : Stats) (k : String)
    (h : ∀ p ∈ upd, ¬ k = p.1) :
    lookupStat (updateStats m upd) k = lookupStat m k := by
  unfold updateStats
  induction upd generalizing m with
  | nil => rfl
  | cons x xs ih =>
    rw [List.foldl_cons]
    rw [ih _ (fun p hp => h p (List.mem_cons_of_mem _ hp))]
    exact lookupStat_setStat_ne _ _ _ _ (h x (List.mem_cons_self _ _))

/-- Decidable check that the character list `pat` occurs contiguously in
`l`, the semantics of the Python `in` operator on strings and of a byte
search in a binary file. -/
def listContainsSeq (pat : List Char) : List Char → Bool
  | [] => pat.isEmpty
  | c :: rest => pat.isPrefixOf (c :: rest) || listContainsSeq pat rest

/-- Python `pat in s` on strings. -/
def strContainsSub (s pat : String) : Bool := listContainsSeq pat.toList s.toList

/-- Python `s.startswith(p)`. -/
def strStartsWith (s p : String) : Bool := p.toList.isPrefixOf s.toList

/-- Drop the first `n` characters of a string. -/
def strDropChars (s : String) (n : Nat) : String := ⟨s.toList.drop n⟩

/-- Auxiliary step for `pySplitlines`: extend the current first line or
start a new one at a newline character. -/
def splitNlStep (c : Char) (acc : List (List Char)) : List (List Char) :=
  match acc with
  | [] => if c = '\n' then [[], []] else [[c]]
  | h :: t => if c = '\n' then [] :: h :: t else (c :: h) :: t

/-- Python `s.splitlines()` restricted to newline separators (the engine
output only uses `\n`); the empty string yields no lines. -/
def pySplitlines (s : String) : List String :=
  if s = "" then [] else (s.toList.foldr splitNlStep [[]]).map (fun l => ⟨l⟩)

/-- Result of one external process run, as returned by the Runner
collaborator (`RunResult` in the spec). -/
structure RunResult where
  command : List String
  output : String
  return_code : Int
  time_executed : Time
  timed_out : Bool
  deriving DecidableEq

/-- Argument record of one `runner.merge` invocation (engine.py line 521). -/
structure MergeCall where
  dirs : List String
  merge_timeout : Time
  tmp_dir : String
  additional_args : List String
  artifact_prefix : Option String
  merge_control_file : Option String
  deriving DecidableEq

/-- Argument record of one `runner.fuzz` invocation (engine.py line 286). -/
structure FuzzCall where
  corpus_directories : List String
  fuzz_timeout : Time
  additional_args : List String
  artifact_prefix : String
  extra_env : List (String × String)
  deriving DecidableEq

/-- Observable side effects of the engine, recorded as a trace. -/
inductive Event where
  | mergeInvoked (call : MergeCall)
  | fuzzInvoked (call : FuzzCall)
  | recreateDir (path : String)
  | createFile (path : String)
  deriving DecidableEq

/-- Mutable engine state: the merge-control-file attribute set in
`Engine.__init__` (engine.py line 80). -/
structure EngineState where
  merge_control_file : Option String
  deriving DecidableEq

/-- The two exceptions a merge can raise: `TimeoutError` and `MergeError`
(engine.py lines 59-60, 536, 542). -/
inductive MergeFailure where
  | timeout
  | mergeError
  deriving DecidableEq

/-- One crash record (`engine.Crash`). -/
structure Crash where
  input_path : String
  logs : String
  reproduce_args : List String
  duration : Int
  deriving DecidableEq

/-- An `engine.FuzzResult` value; merge operations also return this shape
with an empty crash list. -/
structure FuzzResultE where
  logs : String
  command : List String
  crashes : List Crash
  stats : Stats
  time_executed : Time
  timed_out : Bool
  deriving DecidableEq

/-- A `LibFuzzerOptions` value (engine.py lines 63-72);
`merge_back_new_testcases` is set to `True` by `__init__`. -/
structure LibFuzzerOptions where
  corpus_dir : String
  arguments : List String
  strategies : List String
  fuzz_corpus_dirs : List String
  extra_env : List (String × String)
  is_mutations_run : Bool
  merge_back_new_testcases : Bool
  deriving DecidableEq

/-- External collaborators consumed by the engine, as oracle functions.
`runnerMerge`/`runnerFuzz` stand for the libfuzzer Runner, the parse
fields for the log parsers in `libFuzzer.stats`/`libfuzzer`, `fileCount`
for `shell.get_directory_file_count`, `countAfterMove` for the corpus
size after `engine_common.move_mergeable_units`, `mkstemp` for
`tempfile.mkstemp`, the bases for the temp-directory roots, and
`merge_timeout_default` for
`engine_common.get_merge_timeout(DEFAULT_MERGE_TIMEOUT)`.
`parseMergeStats` is modelled from the spec: `parse_stats_from_merge_log`
is not part of the sampled source and the spec states that it yields the
`edge_coverage` and `feature_coverage` statistics of a merge log. -/
structure EngineExt where
  runnerMerge : MergeCall → RunResult
  runnerFuzz : FuzzCall → RunResult
  get_testcase_path : List String → Option String
  parse_log_stats : List String → Stats
  parse_performance_features : List String → List String → List String → Stats
  strip_fuzzing_arguments : List String → Bool → List String
  fix_timeout_argument_for_reproduction : List String → List String
  mkstemp : String → String
  noncrash_return_codes : List Int
  fileCount : String → Nat
  countAfterMove : String → String → Nat
  parseMergeStats : String → Int × Int
  tempBase : String
  fuzzTempBase : String
  merge_timeout_default : Time

/-- Path of `Engine._create_temp_dir(name)` (engine.py lines 190-197). -/
def tempDir (ext : EngineExt) (name : String) : String := ext.tempBase ++ "/" ++ name

/-- Path of `engine_common.create_temp_fuzzing_dir(name)`. -/
def tempFuzzingDir (ext : EngineExt) (name : String) : String :=
  ext.fuzzTempBase ++ "/" ++ name

/-- The merge-control-file path allocated by the two-step merge:
`os.path.join(create_temp_fuzzing_dir('mcf_tmp_dir'), 'MCF')`
(engine.py lines 443-445). -/
def mcfPath (ext : EngineExt) : String := tempFuzzingDir ext "mcf_tmp_dir" ++ "/MCF"

/-- The byte marker `MULTISTEP_MERGE_SUPPORT_TOKEN` (engine.py line 39). -/
def MULTISTEP_MERGE_SUPPORT_TOKEN : List Char :=
  "fuzz target overwrites its const input".toList

/-- Embedding of `_is_multistep_merge_supported` (engine.py lines 42-56):
the target binary is given as `none` when the file does not exist and as
its byte content otherwise.  The byte search is modelled from the spec:
`utils.search_bytes_in_file` is not part of the sampled source and the
spec describes the probe as inspecting the binary for the marker. -/
def is_multistep_merge_supported (target_bytes : Option (List Char)) : Bool :=
  match target_bytes with
  | some contents => listContainsSeq MULTISTEP_MERGE_SUPPORT_TOKEN contents
  | none => false

/-- The merge calls recorded in a trace, in order. -/
def mergeCalls : List Event → List MergeCall
  | [] => []
  | .mergeInvoked c :: rest => c :: mergeCalls rest
  | .fuzzInvoked _ :: rest => mergeCalls rest
  | .recreateDir _ :: rest => mergeCalls rest
  | .createFile _ :: rest => mergeCalls rest

theorem mergeCalls_append (a b : List Event) :
    mergeCalls (a ++ b) = mergeCalls a ++ mergeCalls b := by
  induction a with
  | nil => rfl
  | cons e rest ih =>
    cases e <;> simp [mergeCalls, ih]

/-- The argument record `minimize_corpus` hands to `runner.merge`
(engine.py lines 521-527). -/
def merge_wd_call (ext : EngineExt) (mcf : Option String)
    (arguments input_dirs : List String) (output_dir : String)
    (reproducers_dir : Option String) (max_time : Time) : MergeCall :=
  ⟨[output_dir] ++ input_dirs, max_time, tempDir ext "merge-wd", arguments,
   reproducers_dir, mcf⟩

/-- Embedding of `Engine.minimize_corpus` (engine.py lines 495-548).
The temp working dir `merge-wd` is recreated before the merge and again
in the `finally` block, so both `recreateDir` events appear in the trace
for every outcome; the merge-control-file argument is the current value
of the engine attribute, passed in by the caller.  Logging calls are not
modelled. -/
def minimize_corpus (ext : EngineExt) (mcf : Option String) (arguments : List String)
    (input_dirs : List String) (output_dir : String)
    (reproducers_dir : Option String) (max_time : Time) :
    Except MergeFailure FuzzResultE × List Event :=
  let merge_tmp_dir := tempDir ext "merge-wd"
  let call : MergeCall :=
    merge_wd_call ext mcf arguments input_dirs output_dir reproducers_dir max_time
  let result := ext.runnerMerge call
  let ev : List Event :=
    [.recreateDir merge_tmp_dir, .mergeInvoked call, .recreateDir merge_tmp_dir]
  let res : Except MergeFailure FuzzResultE :=
    if result.timed_out then .error .timeout
    else if result.return_code != 0 then .error .mergeError
    else
      let es := ext.parseMergeStats result.output
      .ok ⟨result.output, result.command, [],
           [("edge_coverage", .int es.1), ("feature_coverage", .int es.2)],
           result.time_executed, false⟩
  (res, ev)

/-- Embedding of `Engine._minimize_corpus_two_step` (engine.py lines
414-493).  When the capability probe fails, the call falls back to a
single `minimize_corpus` run over `existing_corpus_dirs + [new_corpus_dir]`
and the engine state is untouched.  Otherwise the merge-control-file
attribute is set to a path inside the freshly created `mcf_tmp_dir`, both
merge steps run with that attribute value, the output dir is recreated
between the steps, the remaining budget is checked after step 1, the
coverage deltas are clamped at zero when negative, and the attribute is
cleared only on the normal return at the end (the source has no
`try/finally`, so an exception leaves the attribute set). -/
def minimize_corpus_two_step (ext : EngineExt) (s : EngineState)
    (target_bytes : Option (List Char)) (arguments : List String)
    (existing_corpus_dirs : List String) (new_corpus_dir : String)
    (output_corpus_dir : String) (reproducers_dir : Option String)
    (max_time : Time) :
    Except MergeFailure FuzzResultE × List Event × EngineState :=
  if is_multistep_merge_supported target_bytes = false then
    let r := minimize_corpus ext s.merge_control_file arguments
      (existing_corpus_dirs ++ [new_corpus_dir]) output_corpus_dir
      reproducers_dir max_time
    (r.1, r.2, s)
  else
    let merge_control_file_dir := tempFuzzingDir ext "mcf_tmp_dir"
    let mcf := merge_control_file_dir ++ "/MCF"
    let s1 : EngineState := ⟨some mcf⟩
    let ev0 : List Event := [.recreateDir merge_control_file_dir]
    let r1 := minimize_corpus ext s1.merge_control_file arguments
      existing_corpus_dirs output_corpus_dir reproducers_dir max_time
    match r1.1 with
    | .error e => (.error e, ev0 ++ r1.2, s1)
    | .ok result_1 =>
      let initial_edge := statIntD result_1.stats "edge_coverage"
      let initial_feature := statIntD result_1.stats "feature_coverage"
      let ev1 := ev0 ++ r1.2 ++ [.recreateDir output_corpus_dir]
      let max_time2 := max_time.sub result_1.time_executed
      if max_time2.nonpos then (.error .timeout, ev1, s1)
      else
        let r2 := minimize_corpus ext s1.merge_control_file arguments
          (existing_corpus_dirs ++ [new_corpus_dir]) output_corpus_dir
          reproducers_dir max_time2
        match r2.1 with
        | .error e => (.error e, ev1 ++ r2.2, s1)
        | .ok result_2 =>
          let edge := statIntD result_2.stats "edge_coverage"
          let feature := statIntD result_2.stats "feature_coverage"
          let new_edges := edge - initial_edge
          let new_features := feature - initial_feature
          let merge_stats0 : Stats :=
            [("initial_edge_coverage", .int initial_edge),
             ("initial_feature_coverage", .int initial_feature),
             ("edge_coverage", .int edge),
             ("feature_coverage", .int feature),
             ("new_edges", .int new_edges),
             ("new_features", .int new_features)]
          let merge_stats :=
            if new_edges < 0 ∨ new_features < 0 then
              setStat (setStat merge_stats0 "new_edges" (.int 0))
                "new_features" (.int 0)
            else merge_stats0
          let output := result_1.logs ++ "\n\n" ++ result_2.logs
          (.ok ⟨output, result_2.command, [], merge_stats,
                result_1.time_executed.add result_2.time_executed, false⟩,
           ev1 ++ r2.2, ⟨none⟩)

/-- Embedding of `Engine._merge_new_units` (engine.py lines 203-255).
When the new-corpus directory holds no files the merge is skipped and
`new_units_added` is zero; otherwise the two-step merge runs with the
default merge timeout, its `MergeError`/`TimeoutError` outcomes are
caught (leaving `new_units_added` at zero) and on success the mergeable
units are moved back and the corpus-size delta recorded.  The function
returns the updated stats, the event trace and the engine state left by
the two-step merge. -/
def merge_new_units (ext : EngineExt) (s : EngineState)
    (target_bytes : Option (List Char)) (corpus_dir : String)
    (new_corpus_dir : String) (fuzz_corpus_dirs : List String)
    (arguments : List String) (stat_overrides : Stats) :
    Stats × List Event × EngineState :=
  if ext.fileCount new_corpus_dir = 0 then
    (setStat stat_overrides "new_units_added" (.int 0), [], s)
  else
    let merge_corpus := tempFuzzingDir ext "merge-corpus"
    let merge_dirs :=
      if fuzz_corpus_dirs.contains corpus_dir then fuzz_corpus_dirs
      else fuzz_corpus_dirs ++ [corpus_dir]
    let old_corpus_len := ext.fileCount corpus_dir
    let r := minimize_corpus_two_step ext s target_bytes arguments merge_dirs
      new_corpus_dir merge_corpus none ext.merge_timeout_default
    let ev := Event.recreateDir merge_corpus :: r.2.1
    match r.1 with
    | .ok result =>
      let new_corpus_len := ext.countAfterMove merge_corpus corpus_dir
      let new_units_added : Int := (new_corpus_len : Int) - (old_corpus_len : Int)
      let st := updateStats stat_overrides result.stats
      (setStat st "new_units_added" (.int new_units_added), ev, r.2.2)
    | .error _ =>
      (setStat stat_overrides "new_units_added" (.int 0), ev, r.2.2)

/-- The line marker of a Trusty kernel panic
(`_fuzz_output_contains_trusty_kernel_panic`, engine.py lines 257-261). -/
def trusty_panic_line (line : String) : Bool :=
  strContainsSub line "panic notifier - trusty version"

/-- Embedding of `Engine._fuzz_output_contains_trusty_kernel_panic`. -/
def fuzz_output_contains_trusty_kernel_panic (log_lines : List String) : Bool :=
  log_lines.any trusty_panic_line

/-- The libFuzzer timeout flag name (`constants.TIMEOUT_FLAGNAME`). -/
def TIMEOUT_FLAGNAME : String := "timeout"

/-- Modelled from the spec: `FuzzerArguments.get` of
`clusterfuzz._internal.bot.fuzzers.options`, which is not part of the
sampled source.  A libFuzzer argument `-NAME=VALUE` defines flag `NAME`;
a later occurrence overrides an earlier one; an absent flag yields the
default (`none` here). -/
def getFlagStr (args : List String) (name : String) : Option String :=
  (args.filterMap (fun a =>
    if strStartsWith a ("-" ++ name ++ "=") then
      some (strDropChars a ("-" ++ name ++ "=").length)
    else none)).getLast?

/-- Flag read with the `int` constructor. -/
def getFlagInt (args : List String) (name : String) : Option Int :=
  (getFlagStr args name).bind (fun s => s.toInt?)

/-- The corpus-directory list passed to `runner.fuzz` (engine.py lines
279-291): with merge-back enabled, a fresh `new` corpus directory is
prepended to the configured fuzz corpus directories. -/
def fuzz_call (ext : EngineExt) (options : LibFuzzerOptions)
    (reproducers_dir : String) (max_time : Time) : FuzzCall :=
  ⟨(if options.merge_back_new_testcases then
      tempFuzzingDir ext "new" :: options.fuzz_corpus_dirs
    else options.fuzz_corpus_dirs),
   max_time, options.arguments, reproducers_dir, options.extra_env⟩

/-- The log lines of the fuzz run (engine.py line 311). -/
def fuzz_lines (ext : EngineExt) (options : LibFuzzerOptions)
    (reproducers_dir : String) (max_time : Time) : List String :=
  pySplitlines (ext.runnerFuzz (fuzz_call ext options reproducers_dir max_time)).output

/-- The condition under which the fuzz session synthesizes an empty
placeholder testcase (engine.py lines 323-325): no crash path was parsed
AND the return code is outside the non-crash set, OR the Trusty
kernel-panic marker appears in the log. -/
def fuzz_synth (ext : EngineExt) (options : LibFuzzerOptions)
    (reproducers_dir : String) (max_time : Time) : Bool :=
  let fr := ext.runnerFuzz (fuzz_call ext options reproducers_dir max_time)
  let lines := fuzz_lines ext options reproducers_dir max_time
  ((ext.get_testcase_path lines).isNone
     && !(ext.noncrash_return_codes.contains fr.return_code))
    || fuzz_output_contains_trusty_kernel_panic lines

/-- The crash-testcase path the fuzz session ends up with (engine.py
lines 317-327). -/
def fuzz_crash_path (ext : EngineExt) (options : LibFuzzerOptions)
    (reproducers_dir : String) (max_time : Time) : Option String :=
  if fuzz_synth ext options reproducers_dir max_time then
    some (ext.mkstemp reproducers_dir)
  else ext.get_testcase_path (fuzz_lines ext options reproducers_dir max_time)

/-- Embedding of `Engine.fuzz` (engine.py lines 263-377).  Logging-only
branches (dictionary-parse failure, engine-error detection, lines
293-309) have no observable effect in the model and are omitted.  The
performance-feature and log-stat parsers are oracles; the four duration
statistics overwrite whatever the parsers produced; merge-back runs
`merge_new_units` on the stripped argument list and its stats updates are
carried into the returned `FuzzResult`. -/
def fuzz (ext : EngineExt) (s : EngineState) (target_bytes : Option (List Char))
    (options : LibFuzzerOptions) (reproducers_dir : String) (max_time : Time) :
    FuzzResultE × List Event × EngineState :=
  let new_corpus_dir := tempFuzzingDir ext "new"
  let ev0 : List Event :=
    if options.merge_back_new_testcases then [.recreateDir new_corpus_dir] else []
  let call := fuzz_call ext options reproducers_dir max_time
  let fuzz_result := ext.runnerFuzz call
  let log_lines := fuzz_lines ext options reproducers_dir max_time
  let crash_testcase_file_path := fuzz_crash_path ext options reproducers_dir max_time
  let ev1 := ev0 ++ [.fuzzInvoked call] ++
    (if fuzz_synth ext options reproducers_dir max_time then
       [.createFile (ext.mkstemp reproducers_dir)]
     else [])
  let parsed_stats0 := ext.parse_log_stats log_lines
  let parsed_stats1 := updateStats parsed_stats0
    (ext.parse_performance_features log_lines options.strategies options.arguments)
  let timeout_limit := getFlagInt options.arguments TIMEOUT_FLAGNAME
  let actual_duration := fuzz_result.time_executed.trunc
  let fuzzing_time_percent := Time.percentOf actual_duration max_time
  let parsed_stats2 := updateStats parsed_stats1
    [("timeout_limit", match timeout_limit with
        | some z => .int z
        | none => .vnone),
     ("expected_duration", .int max_time.trunc),
     ("actual_duration", .int actual_duration),
     ("fuzzing_time_percent", .num fuzzing_time_percent)]
  let non_fuzz_arguments := ext.strip_fuzzing_arguments options.arguments true
  let m :=
    if options.merge_back_new_testcases then
      merge_new_units ext s target_bytes options.corpus_dir new_corpus_dir
        options.fuzz_corpus_dirs non_fuzz_arguments parsed_stats2
    else (parsed_stats2, [], s)
  let fuzz_logs := String.intercalate "\n" log_lines
  let crashes :=
    match crash_testcase_file_path with
    | some p =>
      let reproduce_arguments :=
        ext.fix_timeout_argument_for_reproduction
          (ext.strip_fuzzing_arguments options.arguments false)
      [⟨p, fuzz_logs, reproduce_arguments, actual_duration⟩]
    | none => []
  (⟨fuzz_logs, fuzz_result.command, crashes, m.1, fuzz_result.time_executed,
    fuzz_result.timed_out⟩,
   ev1 ++ m.2.1, m.2.2)

/-- Unfolding of the result component of `minimize_corpus`. -/
theorem minimize_corpus_fst (ext : EngineExt) (mcf : Option String)
    (arguments input_dirs : List String) (output_dir : String)
    (reproducers_dir : Option String) (max_time : Time) :
    (minimize_corpus ext mcf arguments input_dirs output_dir reproducers_dir max_time).1 =
      (if (ext.runnerMerge (merge_wd_call ext mcf arguments input_dirs output_dir
            reproducers_dir max_time)).timed_out then Except.error MergeFailure.timeout
       else if (ext.runnerMerge (merge_wd_call ext mcf arguments input_dirs output_dir
            reproducers_dir max_time)).return_code != 0 then
         Except.error MergeFailure.mergeError
       else Except.ok
         ⟨(ext.runnerMerge (merge_wd_call ext mcf arguments input_dirs output_dir
             reproducers_dir max_time)).output,
          (ext.runnerMerge (merge_wd_call ext mcf arguments input_dirs output_dir
             reproducers_dir max_time)).command, [],
          [("edge_coverage", .int (ext.parseMergeStats
              (ext.runnerMerge (merge_wd_call ext mcf arguments input_dirs output_dir
                reproducers_dir max_time)).output).1),
           ("feature_coverage", .int (ext.parseMergeStats
              (ext.runnerMerge (merge_wd_call ext mcf arguments input_dirs output_dir
                reproducers_dir max_time)).output).2)],
          (ext.runnerMerge (merge_wd_call ext mcf arguments input_dirs output_dir
             reproducers_dir max_time)).time_executed, false⟩) := rfl

/-- Unfolding of the trace component of `minimize_corpus`: the temp
working directory is recreated before the merge and again afterwards in
every outcome. -/
theorem minimize_corpus_snd (ext : EngineExt) (mcf : Option String)
    (arguments input_dirs : List String) (output_dir : String)
    (reproducers_dir : Option String) (max_time : Time) :
    (minimize_corpus ext mcf arguments input_dirs output_dir reproducers_dir max_time).2 =
      [.recreateDir (tempDir ext "merge-wd"),
       .mergeInvoked (merge_wd_call ext mcf arguments input_dirs output_dir
         reproducers_dir max_time),
       .recreateDir (tempDir ext "merge-wd")] := rfl

/-- The merge calls of one `minimize_corpus` run: exactly the one call,
with the merge-control-file it was given. -/
theorem mergeCalls_minimize_corpus (ext : EngineExt) (mcf : Option String)
    (arguments input_dirs : List String) (output_dir : String)
    (reproducers_dir : Option String) (max_time : Time) :
    mergeCalls (minimize_corpus ext mcf arguments input_dirs output_dir
        reproducers_dir max_time).2 =
      [merge_wd_call ext mcf arguments input_dirs output_dir reproducers_dir
        max_time] := rfl

/-- Strategy-application output (the result record of
`libfuzzer.pick_strategies`, a collaborator outside the sampled source). -/
structure StrategyInfo where
  fuzzing_strategies : List String
  arguments : List String
  extra_env : List (String × String)
  additional_corpus_dirs : List String
  is_mutations_run : Bool

/-- Embedding of the environment merge in `Engine.prepare` (engine.py
lines 135-139): each variable from the fuzzer options file is copied
into the strategy environment only when its name is not already present
there. -/
def update_extra_env (strategy_extra_env : List (String × String))
    (extra_env : Option (List (String × String))) : List (String × String) :=
  match extra_env with
  | none => strategy_extra_env
  | some env =>
    env.foldl
      (fun acc p => if acc.any (fun q => q.1 == p.1) then acc else acc ++ [p])
      strategy_extra_env

/-- Lookup in an environment mapping (first binding of a name wins, as in
a Python dict rendered in insertion order). -/
def envLookup : List (String × String) → String → Option String
  | [], _ => none
  | p :: rest, k => if p.1 == k then some p.2 else envLookup rest k

theorem envLookup_append_some (env l2 : List (String × String)) (k v : String)
    (h : envLookup env k = some v) : envLookup (env ++ l2) k = some v := by
  induction env with
  | nil => exact Option.noConfusion h
  | cons p rest ih =>
    rw [show envLookup (p :: rest) k =
        if p.1 == k then some p.2 else envLookup rest k from rfl] at h
    rw [List.cons_append]
    rw [show envLookup (p :: (rest ++ l2)) k =
        if p.1 == k then some p.2 else envLookup (rest ++ l2) k from rfl]
    by_cases hp : p.1 == k
    · rw [if_pos hp] at h ⊢
      exact h
    · rw [if_neg hp] at h ⊢
      exact ih h

theorem update_env_foldl_preserves (env : List (String × String)) :
    ∀ (acc : List (String × String)) (k v : String), envLookup acc k = some v →
      envLookup (env.foldl
        (fun acc p => if acc.any (fun q => q.1 == p.1) then acc else acc ++ [p])
        acc) k = some v := by
  induction env with
  | nil =>
    intro acc k v h
    exact h
  | cons p ps ih =>
    intro acc k v h
    rw [List.foldl_cons]
    by_cases hc : acc.any (fun q => q.1 == p.1)
    · rw [if_pos hc]
      exact ih _ _ _ h
    · rw [if_neg hc]
      exact ih _ _ _ (envLookup_append_some _ _ _ _ h)

theorem update_extra_env_preserves (env : List (String × String))
    (strategy_extra_env : List (String × String)) (k v : String)
    (h : envLookup strategy_extra_env k = some v) :
    envLookup (update_extra_env strategy_extra_env (some env)) k = some v :=
  update_env_foldl_preserves env strategy_extra_env k v h

/-- Collaborators of `Engine.prepare` that live outside the sampled
source, as oracles: `get_arguments`/`get_extra_env` from the fuzzer
options file, `pick_strategies` for the strategy-application step,
`do_corpus_subset` for the corpus-subset strategy decision together with
the sampled `subset_size` and the corpus file count, the dictionary
resolution (which uses the `FuzzerArguments` helper, not in the sample)
as a transform of the argument list, and `process_strategies` from
`libFuzzer.stats`. -/
structure PrepareExt where
  get_arguments : String → List String
  get_extra_env : String → Option (List (String × String))
  pick_strategies : String → String → List String → StrategyInfo
  do_corpus_subset : Bool
  subset_size : Nat
  corpus_file_count : String → Nat
  resolve_dict_arguments : List String → List String
  process_strategies : List String → List String
  fuzz_temp_base : String

/-- Embedding of `Engine.prepare` (engine.py lines 101-183): arguments
and environment are read for the target, strategies are picked, the
strategy arguments are appended, the fuzzer-options environment is merged
into the strategy environment without overriding existing names, the
corpus-subset strategy either adds a subset directory or the full corpus
directory, dictionary resolution rewrites the arguments, and the
resulting `LibFuzzerOptions` carries `merge_back_new_testcases = true`. -/
def prepare (pext : PrepareExt) (corpus_dir target_path : String) :
    LibFuzzerOptions :=
  let arguments0 := pext.get_arguments target_path
  let extra_env := pext.get_extra_env target_path
  let strategy_info := pext.pick_strategies target_path corpus_dir arguments0
  let arguments1 := arguments0 ++ strategy_info.arguments
  let merged_env := update_extra_env strategy_info.extra_env extra_env
  let subset := pext.do_corpus_subset
      && decide (pext.subset_size < pext.corpus_file_count corpus_dir)
  let fuzzing_strategies :=
    if subset then
      strategy_info.fuzzing_strategies ++
        ["corpus_subset_" ++ toString pext.subset_size]
    else strategy_info.fuzzing_strategies
  let additional_corpus_dirs :=
    if subset then
      strategy_info.additional_corpus_dirs ++ [pext.fuzz_temp_base ++ "/subset"]
    else strategy_info.additional_corpus_dirs ++ [corpus_dir]
  let arguments2 := pext.resolve_dict_arguments arguments1
  ⟨corpus_dir, arguments2, pext.process_strategies fuzzing_strategies,
   additional_corpus_dirs, merged_env, strategy_info.is_mutations_run, true⟩

/-- A successful runner merge result used by the concrete witnesses. -/
def runOk : RunResult := ⟨["cmd"], "log", 0, Time.ofInt 2, false⟩

/-- A timed-out runner merge result used by the concrete witnesses. -/
def runTimedOut : RunResult := ⟨["cmd"], "log", 0, Time.ofInt 2, true⟩

/-- Base concrete collaborator assignment used by witnesses. -/
def extBase : EngineExt :=
  { runnerMerge := fun _ => runOk
    runnerFuzz := fun _ => ⟨["fuzz"], "", 0, Time.ofInt 3, false⟩
    get_testcase_path := fun _ => none
    parse_log_stats := fun _ => []
    parse_performance_features := fun _ _ _ => []
    strip_fuzzing_arguments := fun a _ => a
    fix_timeout_argument_for_reproduction := fun a => a
    mkstemp := fun d => d ++ "/tmp0"
    noncrash_return_codes := [0, 1]
    fileCount := fun _ => 1
    countAfterMove := fun _ _ => 2
    parseMergeStats := fun _ => (5, 7)
    tempBase := "/tmp"
    fuzzTempBase := "/tf"
    merge_timeout_default := Time.ofInt 600 }

/-- Collaborators whose every merge invocation times out. -/
def extMergeTimesOut : EngineExt := { extBase with runnerMerge := fun _ => runTimedOut }

/-- Collaborators reporting an empty new-corpus directory. -/
def extNoNewUnits : EngineExt := { extBase with fileCount := fun _ => 0 }

/-- A target binary containing the multistep-merge marker. -/
def targetSupported : Option (List Char) := some MULTISTEP_MERGE_SUPPORT_TOKEN

/-- A target binary without the multistep-merge marker. -/
def targetPlain : Option (List Char) := some "plain binary".toList

/-- Options with merge-back enabled. -/
def optsMB : LibFuzzerOptions := ⟨"corpus", ["-a"], [], ["fc"], [], false, true⟩

/-- Options with merge-back disabled. -/
def optsNoMB : LibFuzzerOptions := ⟨"corpus", ["-a"], [], ["fc"], [], false, false⟩

/-- Projection of a successful merge outcome, used to name concrete
results in witnesses. -/
def exceptOkD (e : Except MergeFailure FuzzResultE) (d : FuzzResultE) : FuzzResultE :=
  match e with
  | .ok r => r
  | .error _ => d

/-- Claim C8: `minimize_corpus` raises `TimeoutError` exactly when the
runner merge result has the timed-out flag set, raises `MergeError`
exactly when it did not time out and the exit code is non-zero, returns
the parsed merge statistics on success, and the temporary merge working
directory is recreated after the merge invocation in every outcome. -/
theorem minimize_corpus_error_mapping (ext : EngineExt) (mcf : Option String)
    (arguments input_dirs : List String) (output_dir : String)
    (reproducers_dir : Option String) (max_time : Time) (result : RunResult)
    (hres : result = ext.runnerMerge (merge_wd_call ext mcf arguments input_dirs
      output_dir reproducers_dir max_time)) :
    ((minimize_corpus ext mcf arguments input_dirs output_dir reproducers_dir
        max_time).1 = .error .timeout ↔ result.timed_out = true) ∧
    ((minimize_corpus ext mcf arguments input_dirs output_dir reproducers_dir
        max_time).1 = .error .mergeError ↔
      (result.timed_out = false ∧ ¬ result.return_code = 0)) ∧
    (result.timed_out = false → result.return_code = 0 →
      (minimize_corpus ext mcf arguments input_dirs output_dir reproducers_dir
        max_time).1 = .ok ⟨result.output, result.command, [],
          [("edge_coverage", .int (ext.parseMergeStats result.output).1),
           ("feature_coverage", .int (ext.parseMergeStats result.output).2)],
          result.time_executed, false⟩) ∧
    (minimize_corpus ext mcf arguments input_dirs output_dir reproducers_dir
        max_time).2 =
      [.recreateDir (tempDir ext "merge-wd"),
       .mergeInvoked (merge_wd_call ext mcf arguments input_dirs output_dir
         reproducers_dir max_time),
       .recreateDir (tempDir ext "merge-wd")] := by
  subst hres
  refine ⟨?_, ?_, ?_, minimize_corpus_snd ext mcf arguments input_dirs output_dir
    reproducers_dir max_time⟩
  · rw [minimize_corpus_fst]
    by_cases h1 : (ext.runnerMerge (merge_wd_call ext mcf arguments input_dirs
        output_dir reproducers_dir max_time)).timed_out
    · simp [h1]
    · by_cases h2 : (ext.runnerMerge (merge_wd_call ext mcf arguments input_dirs
          output_dir reproducers_dir max_time)).return_code = 0 <;>
        simp [h1, h2]
  · rw [minimize_corpus_fst]
    by_cases h1 : (ext.runnerMerge (merge_wd_call ext mcf arguments input_dirs
        output_dir reproducers_dir max_time)).timed_out
    · simp [h1]
    · by_cases h2 : (ext.runnerMerge (merge_wd_call ext mcf arguments input_dirs
          output_dir reproducers_dir max_time)).return_code = 0 <;>
        simp [h1, h2]
  · intro h1 h2
    rw [minimize_corpus_fst]
    simp [h1, h2]

/-- Witness for C8: a concrete successful merge returns the parsed
statistics. -/
theorem minimize_corpus_error_mapping_witness :
    (minimize_corpus extBase none ["-a"] ["in"] "out" none (Time.ofInt 9)).1 =
      .ok ⟨"log", ["cmd"], [],
        [("edge_coverage", .int 5), ("feature_coverage", .int 7)],
        Time.ofInt 2, false⟩ :=
  (minimize_corpus_error_mapping extBase none ["-a"] ["in"] "out" none
    (Time.ofInt 9) runOk rfl).2.2.1 rfl rfl

/-- Claim C4: on a target without the multistep-merge marker, the
two-step merge is exactly one single-step `minimize_corpus` run over the
existing directories plus the new directory, with the same output
directory, reproducers directory and budget; the engine state is
untouched and a successful result carries only the cumulative
`edge_coverage`/`feature_coverage` statistics, none of the incremental
ones. -/
theorem two_step_fallback_single_step (ext : EngineExt) (s : EngineState)
    (target_bytes : Option (List Char)) (arguments existing_corpus_dirs : List String)
    (new_corpus_dir output_corpus_dir : String) (reproducers_dir : Option String)
    (max_time : Time)
    (hsup : is_multistep_merge_supported target_bytes = false) :
    (minimize_corpus_two_step ext s target_bytes arguments existing_corpus_dirs
        new_corpus_dir output_corpus_dir reproducers_dir max_time).1 =
      (minimize_corpus ext s.merge_control_file arguments
        (existing_corpus_dirs ++ [new_corpus_dir]) output_corpus_dir
        reproducers_dir max_time).1 ∧
    (minimize_corpus_two_step ext s target_bytes arguments existing_corpus_dirs
        new_corpus_dir output_corpus_dir reproducers_dir max_time).2.1 =
      (minimize_corpus ext s.merge_control_file arguments
        (existing_corpus_dirs ++ [new_corpus_dir]) output_corpus_dir
        reproducers_dir max_time).2 ∧
    (minimize_corpus_two_step ext s target_bytes arguments existing_corpus_dirs
        new_corpus_dir output_corpus_dir reproducers_dir max_time).2.2 = s ∧
    (∀ r, (minimize_corpus_two_step ext s target_bytes arguments existing_corpus_dirs
        new_corpus_dir output_corpus_dir reproducers_dir max_time).1 = .ok r →
      lookupStat r.stats "initial_edge_coverage" = none ∧
      lookupStat r.stats "initial_feature_coverage" = none ∧
      lookupStat r.stats "new_edges" = none ∧
      lookupStat r.stats "new_features" = none ∧
      lookupStat r.stats "edge_coverage" = some (.int (ext.parseMergeStats
        (ext.runnerMerge (merge_wd_call ext s.merge_control_file arguments
          (existing_corpus_dirs ++ [new_corpus_dir]) output_corpus_dir
          reproducers_dir max_time)).output).1) ∧
      lookupStat r.stats "feature_coverage" = some (.int (ext.parseMergeStats
        (ext.runnerMerge (merge_wd_call ext s.merge_control_file arguments
          (existing_corpus_dirs ++ [new_corpus_dir]) output_corpus_dir
          reproducers_dir max_time)).output).2)) := by
  have hunf : minimize_corpus_two_step ext s target_bytes arguments
      existing_corpus_dirs new_corpus_dir output_corpus_dir reproducers_dir
      max_time =
      ((minimize_corpus ext s.merge_control_file arguments
         (existing_corpus_dirs ++ [new_corpus_dir]) output_corpus_dir
         reproducers_dir max_time).1,
       (minimize_corpus ext s.merge_control_file arguments
         (existing_corpus_dirs ++ [new_corpus_dir]) output_corpus_dir
         reproducers_dir max_time).2, s) := by
    unfold minimize_corpus_two_step
    rw [if_pos hsup]
  refine ⟨by rw [hunf], by rw [hunf], by rw [hunf], ?_⟩
  intro r hok
  rw [hunf] at hok
  simp only at hok
  rw [minimize_corpus_fst] at hok
  by_cases h1 : (ext.runnerMerge (merge_wd_call ext s.merge_control_file arguments
      (existing_corpus_dirs ++ [new_corpus_dir]) output_corpus_dir
      reproducers_dir max_time)).timed_out
  · rw [if_pos h1] at hok
    exact absurd hok (by simp)
  · rw [if_neg h1] at hok
    by_cases h2 : (ext.runnerMerge (merge_wd_call ext s.merge_control_file arguments
        (existing_corpus_dirs ++ [new_corpus_dir]) output_corpus_dir
        reproducers_dir max_time)).return_code != 0
    · rw [if_pos h2] at hok
      exact absurd hok (by simp)
    · rw [if_neg h2] at hok
      have hr := (Except.ok.injEq _ _).mp hok
      rw [← hr]
      exact ⟨rfl, rfl, rfl, rfl, rfl, rfl⟩

/-- Witness for C4: a concrete marker-less target falls back to the
single-step merge. -/
theorem two_step_fallback_single_step_witness :
    (minimize_corpus_two_step extBase ⟨none⟩ targetPlain ["-a"] ["e"] "n" "o"
        none (Time.ofInt 9)).1 =
      (minimize_corpus extBase none ["-a"] (["e"] ++ ["n"]) "o" none
        (Time.ofInt 9)).1 :=
  (two_step_fallback_single_step extBase ⟨none⟩ targetPlain ["-a"] ["e"] "n" "o"
    none (Time.ofInt 9) (by decide)).1

/-- Claim C2: on a multistep-capable target, when step 1 succeeds but its
elapsed time is at least the original budget, the two-step merge raises
`TimeoutError` and the step-2 merge primitive is never invoked: the trace
holds exactly the one merge call of step 1. -/
theorem two_step_budget_guard (ext : EngineExt) (s : EngineState)
    (target_bytes : Option (List Char)) (arguments existing_corpus_dirs : List String)
    (new_corpus_dir output_corpus_dir : String) (reproducers_dir : Option String)
    (max_time : Time) (result_1 : FuzzResultE)
    (hsup : is_multistep_merge_supported target_bytes = true)
    (h1 : (minimize_corpus ext (some (mcfPath ext)) arguments existing_corpus_dirs
        output_corpus_dir reproducers_dir max_time).1 = .ok result_1)
    (ht : max_time.toRat ≤ result_1.time_executed.toRat) :
    (minimize_corpus_two_step ext s target_bytes arguments existing_corpus_dirs
        new_corpus_dir output_corpus_dir reproducers_dir max_time).1 =
      .error .timeout ∧
    mergeCalls (minimize_corpus_two_step ext s target_bytes arguments
        existing_corpus_dirs new_corpus_dir output_corpus_dir reproducers_dir
        max_time).2.1 =
      [merge_wd_call ext (some (mcfPath ext)) arguments existing_corpus_dirs
        output_corpus_dir reproducers_dir max_time] := by
  have hns : ¬ is_multistep_merge_supported target_bytes = false := by
    rw [hsup]
    simp
  have hguard : (max_time.sub result_1.time_executed).nonpos = true := by
    rw [Time.nonpos_iff, Time.sub_toRat]
    linarith
  simp only [mcfPath] at h1 ⊢
  unfold minimize_corpus_two_step
  rw [if_neg hns]
  dsimp only
  rw [h1]
  dsimp only
  rw [if_pos hguard]
  refine ⟨rfl, ?_⟩
  rw [List.append_assoc]
  rw [mergeCalls_append, mergeCalls_append, mergeCalls_minimize_corpus]
  rfl

/-- Witness for C2: with a step-1 elapsed time equal to the whole budget,
the concrete two-step merge times out after one merge invocation. -/
theorem two_step_budget_guard_witness :
    (minimize_corpus_two_step extBase ⟨none⟩ targetSupported ["-a"] ["e"] "n" "o"
        none (Time.ofInt 2)).1 = .error .timeout ∧
    mergeCalls (minimize_corpus_two_step extBase ⟨none⟩ targetSupported ["-a"]
        ["e"] "n" "o" none (Time.ofInt 2)).2.1 =
      [merge_wd_call extBase (some (mcfPath extBase)) ["-a"] ["e"] "o" none
        (Time.ofInt 2)] :=
  two_step_budget_guard extBase ⟨none⟩ targetSupported ["-a"] ["e"] "n" "o" none
    (Time.ofInt 2)
    ⟨"log", ["cmd"], [], [("edge_coverage", .int 5), ("feature_coverage", .int 7)],
     Time.ofInt 2, false⟩
    (by decide) rfl (le_refl _)

/-- Counterexample for C1 as stated: after a two-step merge that raises
(here: step 1 times out), the merge-control-file reference is NOT
invalidated — it still holds the session path instead of `None`. -/
theorem two_step_mcf_counterexample :
    (minimize_corpus_two_step extMergeTimesOut ⟨none⟩ targetSupported ["-a"] ["e"]
        "n" "o" none (Time.ofInt 9)).1 = .error .timeout ∧
    (minimize_corpus_two_step extMergeTimesOut ⟨none⟩ targetSupported ["-a"] ["e"]
        "n" "o" none (Time.ofInt 9)).2.2.merge_control_file =
      some "/tf/mcf_tmp_dir/MCF" ∧
    some "/tf/mcf_tmp_dir/MCF" ≠ (none : Option String) :=
  ⟨rfl, rfl, by decide⟩

/-- Claim C1 (amended): within one two-step merge on a multistep-capable
target, every merge invocation receives the same merge-control-file path,
and on a normal return the engine reference is cleared to `None`; on an
exceptional exit the source keeps the reference set (no `try/finally`),
so the invalidation part of the claim holds only for normal returns. -/
theorem two_step_mcf_amended (ext : EngineExt) (s : EngineState)
    (target_bytes : Option (List Char)) (arguments existing_corpus_dirs : List String)
    (new_corpus_dir output_corpus_dir : String) (reproducers_dir : Option String)
    (max_time : Time)
    (hsup : is_multistep_merge_supported target_bytes = true) :
    (∀ c ∈ mergeCalls (minimize_corpus_two_step ext s target_bytes arguments
        existing_corpus_dirs new_corpus_dir output_corpus_dir reproducers_dir
        max_time).2.1,
      c.merge_control_file = some (mcfPath ext)) ∧
    (∀ r, (minimize_corpus_two_step ext s target_bytes arguments
        existing_corpus_dirs new_corpus_dir output_corpus_dir reproducers_dir
        max_time).1 = .ok r →
      (minimize_corpus_two_step ext s target_bytes arguments existing_corpus_dirs
        new_corpus_dir output_corpus_dir reproducers_dir max_time).2.2 =
      ⟨none⟩) := by
  have hns : ¬ is_multistep_merge_supported target_bytes = false := by
    rw [hsup]
    simp
  simp only [mcfPath]
  unfold minimize_corpus_two_step
  rw [if_neg hns]
  dsimp only
  cases hr1 : (minimize_corpus ext
      (some (tempFuzzingDir ext "mcf_tmp_dir" ++ "/MCF")) arguments
      existing_corpus_dirs output_corpus_dir reproducers_dir max_time).1 with
  | error e =>
    dsimp only
    constructor
    · intro c hc
      rw [mergeCalls_append] at hc
      rw [mergeCalls_minimize_corpus] at hc
      rcases List.mem_append.mp hc with h | h
      · exact absurd h (by simp [mergeCalls])
      · rw [List.mem_singleton.mp h]
        rfl
    · intro r hr
      exact absurd hr (by simp)
  | ok result_1 =>
    dsimp only
    by_cases hguard : (max_time.sub result_1.time_executed).nonpos
    · rw [if_pos hguard]
      constructor
      · intro c hc
        rw [mergeCalls_append, mergeCalls_append, mergeCalls_minimize_corpus] at hc
        rcases List.mem_append.mp hc with h | h
        · rcases List.mem_append.mp h with h2 | h2
          · exact absurd h2 (by simp [mergeCalls])
          · rw [List.mem_singleton.mp h2]
            rfl
        · exact absurd h (by simp [mergeCalls])
      · intro r hr
        exact absurd hr (by simp)
    · rw [if_neg hguard]
      cases hr2 : (minimize_corpus ext
          (some (tempFuzzingDir ext "mcf_tmp_dir" ++ "/MCF")) arguments
          (existing_corpus_dirs ++ [new_corpus_dir]) output_corpus_dir
          reproducers_dir (max_time.sub result_1.time_executed)).1 with
      | error e =>
        dsimp only
        constructor
        · intro c hc
          rw [mergeCalls_append, mergeCalls_append, mergeCalls_append,
            mergeCalls_minimize_corpus, mergeCalls_minimize_corpus] at hc
          rcases List.mem_append.mp hc with h | h
          · rcases List.mem_append.mp h with h2 | h2
            · rcases List.mem_append.mp h2 with h3 | h3
              · exact absurd h3 (by simp [mergeCalls])
              · rw [List.mem_singleton.mp h3]
                rfl
            · exact absurd h2 (by simp [mergeCalls])
          · rw [List.mem_singleton.mp h]
            rfl
        · intro r hr
          exact absurd hr (by simp)
      | ok result_2 =>
        dsimp only
        constructor
        · intro c hc
          rw [mergeCalls_append, mergeCalls_append, mergeCalls_append,
            mergeCalls_minimize_corpus, mergeCalls_minimize_corpus] at hc
          rcases List.mem_append.mp hc with h | h
          · rcases List.mem_append.mp h with h2 | h2
            · rcases List.mem_append.mp h2 with h3 | h3
              · exact absurd h3 (by simp [mergeCalls])
              · rw [List.mem_singleton.mp h3]
                rfl
            · exact absurd h2 (by simp [mergeCalls])
          · rw [List.mem_singleton.mp h]
            rfl
        · intro r hr
          rfl

/-- Witness for C1 (amended): a concrete successful two-step merge whose
merge calls all carry the session path, with the reference cleared at the
end. -/
theorem two_step_mcf_amended_witness :
    (∀ c ∈ mergeCalls (minimize_corpus_two_step extBase ⟨none⟩ targetSupported
        ["-a"] ["e"] "n" "o" none (Time.ofInt 9)).2.1,
      c.merge_control_file = some (mcfPath extBase)) ∧
    (∀ r, (minimize_corpus_two_step extBase ⟨none⟩ targetSupported ["-a"] ["e"]
        "n" "o" none (Time.ofInt 9)).1 = .ok r →
      (minimize_corpus_two_step extBase ⟨none⟩ targetSupported ["-a"] ["e"] "n"
        "o" none (Time.ofInt 9)).2.2 = ⟨none⟩) :=
  two_step_mcf_amended extBase ⟨none⟩ targetSupported ["-a"] ["e"] "n" "o" none
    (Time.ofInt 9) (by decide)

/-- Claim C3: a completed two-step merge on a multistep-capable target
returns stats in which `new_edges`/`new_features` are the coverage deltas
of the two steps, except that both are clamped to zero when either raw
delta is negative; hence both returned values are non-negative. -/
theorem two_step_stats_clamped (ext : EngineExt) (s : EngineState)
    (target_bytes : Option (List Char)) (arguments existing_corpus_dirs : List String)
    (new_corpus_dir output_corpus_dir : String) (reproducers_dir : Option String)
    (max_time : Time) (r : FuzzResultE)
    (hsup : is_multistep_merge_supported target_bytes = true)
    (hok : (minimize_corpus_two_step ext s target_bytes arguments
        existing_corpus_dirs new_corpus_dir output_corpus_dir reproducers_dir
        max_time).1 = .ok r) :
    ∃ ie ifc e f ne nf : Int,
      lookupStat r.stats "initial_edge_coverage" = some (.int ie) ∧
      lookupStat r.stats "initial_feature_coverage" = some (.int ifc) ∧
      lookupStat r.stats "edge_coverage" = some (.int e) ∧
      lookupStat r.stats "feature_coverage" = some (.int f) ∧
      lookupStat r.stats "new_edges" = some (.int ne) ∧
      lookupStat r.stats "new_features" = some (.int nf) ∧
      ((0 ≤ e - ie ∧ 0 ≤ f - ifc ∧ ne = e - ie ∧ nf = f - ifc) ∨
       ((e - ie < 0 ∨ f - ifc < 0) ∧ ne = 0 ∧ nf = 0)) ∧
      0 ≤ ne ∧ 0 ≤ nf := by
  have hns : ¬ is_multistep_merge_supported target_bytes = false := by
    rw [hsup]
    simp
  unfold minimize_corpus_two_step at hok
  rw [if_neg hns] at hok
  dsimp only at hok
  cases hr1 : (minimize_corpus ext
      (some (tempFuzzingDir ext "mcf_tmp_dir" ++ "/MCF")) arguments
      existing_corpus_dirs output_corpus_dir reproducers_dir max_time).1 with
  | error e =>
    rw [hr1] at hok
    dsimp only at hok
    exact absurd hok (by simp)
  | ok result_1 =>
    rw [hr1] at hok
    dsimp only at hok
    by_cases hguard : (max_time.sub result_1.time_executed).nonpos
    · rw [if_pos hguard] at hok
      exact absurd hok (by simp)
    · rw [if_neg hguard] at hok
      cases hr2 : (minimize_corpus ext
          (some (tempFuzzingDir ext "mcf_tmp_dir" ++ "/MCF")) arguments
          (existing_corpus_dirs ++ [new_corpus_dir]) output_corpus_dir
          reproducers_dir (max_time.sub result_1.time_executed)).1 with
      | error e =>
        rw [hr2] at hok
        dsimp only at hok
        exact absurd hok (by simp)
      | ok result_2 =>
        rw [hr2] at hok
        dsimp only at hok
        have hr := (Except.ok.injEq _ _).mp hok
        rw [← hr]
        by_cases hc : statIntD result_2.stats "edge_coverage" -
            statIntD result_1.stats "edge_coverage" < 0 ∨
            statIntD result_2.stats "feature_coverage" -
            statIntD result_1.stats "feature_coverage" < 0
        · refine ⟨statIntD result_1.stats "edge_coverage",
            statIntD result_1.stats "feature_coverage",
            statIntD result_2.stats "edge_coverage",
            statIntD result_2.stats "feature_coverage", 0, 0, ?_⟩
          rw [show (⟨result_1.logs ++ "\n\n" ++ result_2.logs, result_2.command,
            [], _, result_1.time_executed.add result_2.time_executed,
            false⟩ : FuzzResultE).stats = _ from rfl]
          rw [if_pos hc]
          exact ⟨rfl, rfl, rfl, rfl, rfl, rfl, Or.inr ⟨hc, rfl, rfl⟩,
            le_refl 0, le_refl 0⟩
        · refine ⟨statIntD result_1.stats "edge_coverage",
            statIntD result_1.stats "feature_coverage",
            statIntD result_2.stats "edge_coverage",
            statIntD result_2.stats "feature_coverage",
            statIntD result_2.stats "edge_coverage" -
              statIntD result_1.stats "edge_coverage",
            statIntD result_2.stats "feature_coverage" -
              statIntD result_1.stats "feature_coverage", ?_⟩
          rw [show (⟨result_1.logs ++ "\n\n" ++ result_2.logs, result_2.command,
            [], _, result_1.time_executed.add result_2.time_executed,
            false⟩ : FuzzResultE).stats = _ from rfl]
          rw [if_neg hc]
          rw [not_or] at hc
          have h1 : 0 ≤ statIntD result_2.stats "edge_coverage" -
              statIntD result_1.stats "edge_coverage" := le_of_not_lt hc.1
          have h2 : 0 ≤ statIntD result_2.stats "feature_coverage" -
              statIntD result_1.stats "feature_coverage" := le_of_not_lt hc.2
          exact ⟨rfl, rfl, rfl, rfl, rfl, rfl, Or.inl ⟨h1, h2, rfl, rfl⟩, h1, h2⟩

/-- The concrete successful two-step merge outcome used by the C3
witness. -/
def twoStepOkB : FuzzResultE :=
  exceptOkD (minimize_corpus_two_step extBase ⟨none⟩ targetSupported ["-a"] ["e"]
    "n" "o" none (Time.ofInt 9)).1 ⟨"", [], [], [], Time.ofInt 0, false⟩

/-- Witness for C3 at a concrete successful two-step merge. -/
theorem two_step_stats_clamped_witness :
    ∃ ie ifc e f ne nf : Int,
      lookupStat twoStepOkB.stats "initial_edge_coverage" = some (.int ie) ∧
      lookupStat twoStepOkB.stats "initial_feature_coverage" = some (.int ifc) ∧
      lookupStat twoStepOkB.stats "edge_coverage" = some (.int e) ∧
      lookupStat twoStepOkB.stats "feature_coverage" = some (.int f) ∧
      lookupStat twoStepOkB.stats "new_edges" = some (.int ne) ∧
      lookupStat twoStepOkB.stats "new_features" = some (.int nf) ∧
      ((0 ≤ e - ie ∧ 0 ≤ f - ifc ∧ ne = e - ie ∧ nf = f - ifc) ∨
       ((e - ie < 0 ∨ f - ifc < 0) ∧ ne = 0 ∧ nf = 0)) ∧
      0 ≤ ne ∧ 0 ≤ nf :=
  two_step_stats_clamped extBase ⟨none⟩ targetSupported ["-a"] ["e"] "n" "o" none
    (Time.ofInt 9) twoStepOkB (by decide) rfl

/-- Claim C7: with an empty new-corpus directory, merge-back performs no
merge invocation at all and records `new_units_added = 0`. -/
theorem merge_skip_when_no_new_units (ext : EngineExt) (s : EngineState)
    (target_bytes : Option (List Char)) (corpus_dir new_corpus_dir : String)
    (fuzz_corpus_dirs arguments : List String) (stat_overrides : Stats)
    (hn : ext.fileCount new_corpus_dir = 0) :
    merge_new_units ext s target_bytes corpus_dir new_corpus_dir fuzz_corpus_dirs
        arguments stat_overrides =
      (setStat stat_overrides "new_units_added" (.int 0), [], s) ∧
    mergeCalls (merge_new_units ext s target_bytes corpus_dir new_corpus_dir
        fuzz_corpus_dirs arguments stat_overrides).2.1 = [] ∧
    lookupStat (merge_new_units ext s target_bytes corpus_dir new_corpus_dir
        fuzz_corpus_dirs arguments stat_overrides).1 "new_units_added" =
      some (.int 0) := by
  have h : merge_new_units ext s target_bytes corpus_dir new_corpus_dir
      fuzz_corpus_dirs arguments stat_overrides =
      (setStat stat_overrides "new_units_added" (.int 0), [], s) := by
    unfold merge_new_units
    rw [if_pos hn]
  refine ⟨h, ?_, ?_⟩
  · rw [h]
    rfl
  · rw [h]
    exact lookupStat_setStat _ _ _

/-- Witness for C7 at a concrete empty new-corpus directory. -/
theorem merge_skip_when_no_new_units_witness :
    merge_new_units extNoNewUnits ⟨none⟩ targetPlain "c" "n" ["fc"] ["-a"] [] =
      (setStat [] "new_units_added" (.int 0), [], (⟨none⟩ : EngineState)) ∧
    mergeCalls (merge_new_units extNoNewUnits ⟨none⟩ targetPlain "c" "n" ["fc"]
        ["-a"] []).2.1 = [] ∧
    lookupStat (merge_new_units extNoNewUnits ⟨none⟩ targetPlain "c" "n" ["fc"]
        ["-a"] []).1 "new_units_added" = some (.int 0) :=
  merge_skip_when_no_new_units extNoNewUnits ⟨none⟩ targetPlain "c" "n" ["fc"]
    ["-a"] [] rfl

/-- Claim C6: when the two-step merge underlying a merge-back raises
`MergeError` or `TimeoutError`, the failure is contained: the merge-back
returns normally with `new_units_added = 0` in its stats, and the owning
fuzz session still returns its `FuzzResult`, whose stats carry
`new_units_added = 0` (the warning log is not modelled). -/
theorem merge_failure_isolated (ext : EngineExt) (s : EngineState)
    (target_bytes : Option (List Char)) (options : LibFuzzerOptions)
    (reproducers_dir : String) (max_time : Time) (err : MergeFailure)
    (hmb : options.merge_back_new_testcases = true)
    (hn : ¬ ext.fileCount (tempFuzzingDir ext "new") = 0)
    (hf : (minimize_corpus_two_step ext s target_bytes
        (ext.strip_fuzzing_arguments options.arguments true)
        (if options.fuzz_corpus_dirs.contains options.corpus_dir then
           options.fuzz_corpus_dirs
         else options.fuzz_corpus_dirs ++ [options.corpus_dir])
        (tempFuzzingDir ext "new") (tempFuzzingDir ext "merge-corpus") none
        ext.merge_timeout_default).1 = .error err) :
    (∀ stat_overrides : Stats,
      lookupStat (merge_new_units ext s target_bytes options.corpus_dir
          (tempFuzzingDir ext "new") options.fuzz_corpus_dirs
          (ext.strip_fuzzing_arguments options.arguments true) stat_overrides).1
        "new_units_added" = some (.int 0)) ∧
    lookupStat (fuzz ext s target_bytes options reproducers_dir max_time).1.stats
      "new_units_added" = some (.int 0) := by
  have haux : ∀ st : Stats,
      lookupStat (merge_new_units ext s target_bytes options.corpus_dir
        (tempFuzzingDir ext "new") options.fuzz_corpus_dirs
        (ext.strip_fuzzing_arguments options.arguments true) st).1
        "new_units_added" = some (.int 0) := by
    intro st
    unfold merge_new_units
    rw [if_neg hn]
    dsimp only
    rw [hf]
    dsimp only
    exact lookupStat_setStat _ _ _
  refine ⟨haux, ?_⟩
  have hfz : (fuzz ext s target_bytes options reproducers_dir max_time).1.stats =
      (merge_new_units ext s target_bytes options.corpus_dir
        (tempFuzzingDir ext "new") options.fuzz_corpus_dirs
        (ext.strip_fuzzing_arguments options.arguments true)
        (updateStats
          (updateStats
            (ext.parse_log_stats (fuzz_lines ext options reproducers_dir max_time))
            (ext.parse_performance_features
              (fuzz_lines ext options reproducers_dir max_time)
              options.strategies options.arguments))
          [("timeout_limit",
              match getFlagInt options.arguments TIMEOUT_FLAGNAME with
              | some z => .int z
              | none => .vnone),
           ("expected_duration", .int max_time.trunc),
           ("actual_duration", .int (ext.runnerFuzz
              (fuzz_call ext options reproducers_dir max_time)).time_executed.trunc),
           ("fuzzing_time_percent", .num (Time.percentOf
              (ext.runnerFuzz
                (fuzz_call ext options reproducers_dir max_time)).time_executed.trunc
              max_time))])).1 := by
    unfold fuzz
    rw [hmb]
    rfl
  rw [hfz]
  exact haux _

/-- Witness for C6: a fuzz session whose merge-back times out still
returns stats with `new_units_added = 0`. -/
theorem merge_failure_isolated_witness :
    lookupStat (fuzz extMergeTimesOut ⟨none⟩ targetPlain optsMB "rep"
        (Time.ofInt 10)).1.stats "new_units_added" = some (.int 0) :=
  (merge_failure_isolated extMergeTimesOut ⟨none⟩ targetPlain optsMB "rep"
    (Time.ofInt 10) .timeout rfl (by decide) rfl).2

/-- Collaborators producing both a parsed crash path and a Trusty
kernel-panic line in the fuzz output. -/
def extPanic : EngineExt :=
  { extBase with
    runnerFuzz := fun _ =>
      ⟨["fuzz"], "panic notifier - trusty version 1", 0, Time.ofInt 3, false⟩
    get_testcase_path := fun _ => some "crash.txt" }

/-- Counterexample for C5 as stated: when the output parser does find a
crash-artifact path but the log holds the kernel-panic marker, the
session does NOT report the parsed path — the source condition is
`(no parsed path AND bad exit code) OR panic marker`, so the panic branch
replaces the parsed path with the synthesized placeholder. -/
theorem fuzz_crash_parsed_path_counterexample :
    extPanic.get_testcase_path (fuzz_lines extPanic optsNoMB "rep" (Time.ofInt 10)) =
      some "crash.txt" ∧
    (fuzz extPanic ⟨none⟩ none optsNoMB "rep" (Time.ofInt 10)).1.crashes.map
      (fun c => c.input_path) = ["rep/tmp0"] ∧
    ("rep/tmp0" : String) ≠ "crash.txt" :=
  ⟨rfl, rfl, by decide⟩

/-- Claim C5 (amended): the placeholder testcase is synthesized exactly
when (no crash path was parsed AND the return code is outside the
non-crash set) OR the kernel-panic marker appears — the panic disjunct is
not guarded by the absence of a parsed path.  When the placeholder
condition fails, the parsed path (if any) is the one reported, and the
crash list has exactly one entry whenever the condition holds or a path
was parsed. -/
theorem fuzz_crash_synthesis_amended (ext : EngineExt) (s : EngineState)
    (target_bytes : Option (List Char)) (options : LibFuzzerOptions)
    (reproducers_dir : String) (max_time : Time) :
    (fuzz_synth ext options reproducers_dir max_time =
      (((ext.get_testcase_path (fuzz_lines ext options reproducers_dir max_time)).isNone
         && !(ext.noncrash_return_codes.contains
              (ext.runnerFuzz (fuzz_call ext options reproducers_dir max_time)).return_code))
        || fuzz_output_contains_trusty_kernel_panic
             (fuzz_lines ext options reproducers_dir max_time))) ∧
    (fuzz_synth ext options reproducers_dir max_time = true →
      (fuzz ext s target_bytes options reproducers_dir max_time).1.crashes.map
        (fun c => c.input_path) = [ext.mkstemp reproducers_dir]) ∧
    (fuzz_synth ext options reproducers_dir max_time = false →
      (fuzz ext s target_bytes options reproducers_dir max_time).1.crashes.map
        (fun c => c.input_path) =
      (((ext.get_testcase_path (fuzz_lines ext options reproducers_dir
          max_time)).map (fun p => [p])).getD [])) := by
  refine ⟨rfl, ?_, ?_⟩
  · intro hs
    have hcp : fuzz_crash_path ext options reproducers_dir max_time =
        some (ext.mkstemp reproducers_dir) := by
      unfold fuzz_crash_path
      rw [if_pos hs]
    unfold fuzz
    dsimp only
    rw [hcp]
    rfl
  · intro hs
    have hcp : fuzz_crash_path ext options reproducers_dir max_time =
        ext.get_testcase_path (fuzz_lines ext options reproducers_dir max_time) := by
      unfold fuzz_crash_path
      rw [if_neg (by rw [hs]; simp)]
    unfold fuzz
    dsimp only
    rw [hcp]
    cases hp : ext.get_testcase_path (fuzz_lines ext options reproducers_dir
        max_time) with
    | none => rfl
    | some p => rfl

/-- Witness for C5 (amended): a run with no parsed crash path and a
non-crash exit code reports no crashes. -/
theorem fuzz_crash_synthesis_amended_witness :
    (fuzz extBase ⟨none⟩ none optsNoMB "rep" (Time.ofInt 10)).1.crashes.map
      (fun c => c.input_path) =
    (((extBase.get_testcase_path (fuzz_lines extBase optsNoMB "rep"
        (Time.ofInt 10))).map (fun p => [p])).getD []) :=
  (fuzz_crash_synthesis_amended extBase ⟨none⟩ none optsNoMB "rep"
    (Time.ofInt 10)).2.2 rfl

/-- Concrete prepare collaborators where the strategy step and the fuzzer
options file both define `ASAN_OPTIONS`. -/
def pextConflict : PrepareExt :=
  { get_arguments := fun _ => []
    get_extra_env := fun _ => some [("ASAN_OPTIONS", "caller-value")]
    pick_strategies := fun _ _ _ => ⟨[], [], [("ASAN_OPTIONS", "strategy-value")], [], false⟩
    do_corpus_subset := false
    subset_size := 0
    corpus_file_count := fun _ => 0
    resolve_dict_arguments := fun a => a
    process_strategies := fun st => st
    fuzz_temp_base := "/tf" }

/-- Counterexample for C9 as stated: when the strategy step and the
fuzzer options file define the same variable, the value present in the
prepared options is the strategy one — the options-file (caller-side)
value is dropped, contrary to the claim. -/
theorem prepare_env_counterexample :
    envLookup (prepare pextConflict "c" "t").extra_env "ASAN_OPTIONS" =
      some "strategy-value" ∧
    some "strategy-value" ≠ some "caller-value" :=
  ⟨rfl, by decide⟩

/-- Claim C9 (amended): a variable already present in the
strategy-application environment keeps its strategy value in the
prepared options; entries from the target's options file are added only
for names the strategy step did not set, so neither side overrides an
existing entry — and on a conflict the strategy value is the one kept. -/
theorem prepare_env_amended (pext : PrepareExt) (corpus_dir target_path name v : String)
    (h : envLookup (pext.pick_strategies target_path corpus_dir
        (pext.get_arguments target_path)).extra_env name = some v) :
    envLookup (prepare pext corpus_dir target_path).extra_env name = some v := by
  unfold prepare
  dsimp only
  cases hext : pext.get_extra_env target_path with
  | none => exact h
  | some env => exact update_extra_env_preserves env _ _ _ h

/-- Witness for C9 (amended) at the concrete conflicting environments. -/
theorem prepare_env_amended_witness :
    envLookup (prepare pextConflict "c" "t").extra_env "ASAN_OPTIONS" =
      some "strategy-value" :=
  prepare_env_amended pextConflict "c" "t" "ASAN_OPTIONS" "strategy-value" rfl

theorem setStat_mem_keys (m : Stats) (k : String) (v : StatVal)
    (p : String × StatVal) (hp : p ∈ setStat m k v) :
    p.1 = k ∨ ∃ q ∈ m, p.1 = q.1 := by
  unfold setStat at hp
  by_cases hm : m.any (fun q => q.1 == k)
  · rw [if_pos hm] at hp
    rcases List.mem_map.mp hp with ⟨q, hq, hfq⟩
    by_cases hqk : q.1 == k
    · rw [if_pos hqk] at hfq
      left
      rw [← hfq]
    · rw [if_neg hqk] at hfq
      right
      exact ⟨q, hq, by rw [← hfq]⟩
  · rw [if_neg hm] at hp
    rcases List.mem_append.mp hp with h | h
    · right
      exact ⟨p, h, rfl⟩
    · left
      rw [List.mem_singleton.mp h]

theorem mem_six_merge_keys (a b c d e f : StatVal) (p : String × StatVal)
    (hp : p ∈ [("initial_edge_coverage", a), ("initial_feature_coverage", b),
          ("edge_coverage", c), ("feature_coverage", d), ("new_edges", e),
          ("new_features", f)]) :
    p.1 = "initial_edge_coverage" ∨ p.1 = "initial_feature_coverage" ∨
    p.1 = "edge_coverage" ∨ p.1 = "feature_coverage" ∨
    p.1 = "new_edges" ∨ p.1 = "new_features" := by
  simp only [List.mem_cons, List.not_mem_nil, or_false] at hp
  rcases hp with h | h | h | h | h | h <;> rw [h] <;> simp

/-- Every key of a successful two-step merge result is one of the six
merge statistics keys. -/
theorem two_step_stats_keys (ext : EngineExt) (s : EngineState)
    (target_bytes : Option (List Char)) (arguments existing_corpus_dirs : List String)
    (new_corpus_dir output_corpus_dir : String) (reproducers_dir : Option String)
    (max_time : Time) (r : FuzzResultE) (p : String × StatVal)
    (hok : (minimize_corpus_two_step ext s target_bytes arguments
        existing_corpus_dirs new_corpus_dir output_corpus_dir reproducers_dir
        max_time).1 = .ok r) (hp : p ∈ r.stats) :
    p.1 = "initial_edge_coverage" ∨ p.1 = "initial_feature_coverage" ∨
    p.1 = "edge_coverage" ∨ p.1 = "feature_coverage" ∨
    p.1 = "new_edges" ∨ p.1 = "new_features" := by
  by_cases hsup : is_multistep_merge_supported target_bytes = false
  · unfold minimize_corpus_two_step at hok
    rw [if_pos hsup] at hok
    dsimp only at hok
    rw [minimize_corpus_fst] at hok
    by_cases h1 : (ext.runnerMerge (merge_wd_call ext s.merge_control_file
        arguments (existing_corpus_dirs ++ [new_corpus_dir]) output_corpus_dir
        reproducers_dir max_time)).timed_out
    · rw [if_pos h1] at hok
      exact absurd hok (by simp)
    · rw [if_neg h1] at hok
      by_cases h2 : (ext.runnerMerge (merge_wd_call ext s.merge_control_file
          arguments (existing_corpus_dirs ++ [new_corpus_dir]) output_corpus_dir
          reproducers_dir max_time)).return_code != 0
      · rw [if_pos h2] at hok
        exact absurd hok (by simp)
      · rw [if_neg h2] at hok
        have hr := (Except.ok.injEq _ _).mp hok
        rw [← hr] at hp
        simp only [List.mem_cons, List.not_mem_nil, or_false] at hp
        rcases hp with h | h <;> rw [h] <;> simp
  · unfold minimize_corpus_two_step at hok
    rw [if_neg hsup] at hok
    dsimp only at hok
    cases hr1 : (minimize_corpus ext
        (some (tempFuzzingDir ext "mcf_tmp_dir" ++ "/MCF")) arguments
        existing_corpus_dirs output_corpus_dir reproducers_dir max_time).1 with
    | error e =>
      rw [hr1] at hok
      dsimp only at hok
      exact absurd hok (by simp)
    | ok result_1 =>
      rw [hr1] at hok
      dsimp only at hok
      by_cases hguard : (max_time.sub result_1.time_executed).nonpos
      · rw [if_pos hguard] at hok
        exact absurd hok (by simp)
      · rw [if_neg hguard] at hok
        cases hr2 : (minimize_corpus ext
            (some (tempFuzzingDir ext "mcf_tmp_dir" ++ "/MCF")) arguments
            (existing_corpus_dirs ++ [new_corpus_dir]) output_corpus_dir
            reproducers_dir (max_time.sub result_1.time_executed)).1 with
        | error e =>
          rw [hr2] at hok
          dsimp only at hok
          exact absurd hok (by simp)
        | ok result_2 =>
          rw [hr2] at hok
          dsimp only at hok
          have hr := (Except.ok.injEq _ _).mp hok
          rw [← hr] at hp
          by_cases hc : statIntD result_2.stats "edge_coverage" -
              statIntD result_1.stats "edge_coverage" < 0 ∨
              statIntD result_2.stats "feature_coverage" -
              statIntD result_1.stats "feature_coverage" < 0
          · dsimp only at hp
            rw [if_pos hc] at hp
            rcases setStat_mem_keys _ _ _ _ hp with h | ⟨q, hq, hpq⟩
            · right; right; right; right; right; exact h
            · rcases setStat_mem_keys _ _ _ _ hq with h2 | ⟨q2, hq2, hq2q⟩
              · right; right; right; right; left
                rw [hpq, h2]
              · rw [hpq, hq2q]
                exact mem_six_merge_keys _ _ _ _ _ _ _ hq2
          · dsimp only at hp
            rw [if_neg hc] at hp
            exact mem_six_merge_keys _ _ _ _ _ _ _ hp

/-- Keys other than the merge statistics and `new_units_added` are left
untouched by the merge-back. -/
theorem merge_new_units_preserves (ext : EngineExt) (s : EngineState)
    (target_bytes : Option (List Char)) (corpus_dir new_corpus_dir : String)
    (fuzz_corpus_dirs arguments : List String) (stat_overrides : Stats)
    (k : String)
    (hk1 : ¬ k = "new_units_added") (hk2 : ¬ k = "initial_edge_coverage")
    (hk3 : ¬ k = "initial_feature_coverage") (hk4 : ¬ k = "edge_coverage")
    (hk5 : ¬ k = "feature_coverage") (hk6 : ¬ k = "new_edges")
    (hk7 : ¬ k = "new_features") :
    lookupStat (merge_new_units ext s target_bytes corpus_dir new_corpus_dir
        fuzz_corpus_dirs arguments stat_overrides).1 k =
      lookupStat stat_overrides k := by
  unfold merge_new_units
  by_cases hn : ext.fileCount new_corpus_dir = 0
  · rw [if_pos hn]
    exact lookupStat_setStat_ne _ _ _ _ hk1
  · rw [if_neg hn]
    dsimp only
    cases hr : (minimize_corpus_two_step ext s target_bytes arguments
        (if fuzz_corpus_dirs.contains corpus_dir then fuzz_corpus_dirs
         else fuzz_corpus_dirs ++ [corpus_dir]) new_corpus_dir
        (tempFuzzingDir ext "merge-corpus") none ext.merge_timeout_default).1 with
    | error e =>
      dsimp only
      exact lookupStat_setStat_ne _ _ _ _ hk1
    | ok result =>
      dsimp only
      rw [lookupStat_setStat_ne _ _ _ _ hk1]
      apply lookupStat_updateStats_ne
      intro p hp
      rcases two_step_stats_keys ext s target_bytes arguments _ new_corpus_dir
          (tempFuzzingDir ext "merge-corpus") none ext.merge_timeout_default
          result p hr hp with h | h | h | h | h | h
      · rw [h]; exact hk2
      · rw [h]; exact hk3
      · rw [h]; exact hk4
      · rw [h]; exact hk5
      · rw [h]; exact hk6
      · rw [h]; exact hk7

theorem lookupStat_update_four (m : Stats) (v1 v2 v3 v4 : StatVal) :
    lookupStat (updateStats m
      [("timeout_limit", v1), ("expected_duration", v2), ("actual_duration", v3),
       ("fuzzing_time_percent", v4)]) "timeout_limit" = some v1 ∧
    lookupStat (updateStats m
      [("timeout_limit", v1), ("expected_duration", v2), ("actual_duration", v3),
       ("fuzzing_time_percent", v4)]) "expected_duration" = some v2 ∧
    lookupStat (updateStats m
      [("timeout_limit", v1), ("expected_duration", v2), ("actual_duration", v3),
       ("fuzzing_time_percent", v4)]) "actual_duration" = some v3 ∧
    lookupStat (updateStats m
      [("timeout_limit", v1), ("expected_duration", v2), ("actual_duration", v3),
       ("fuzzing_time_percent", v4)]) "fuzzing_time_percent" = some v4 := by
  have hu : updateStats m
      [("timeout_limit", v1), ("expected_duration", v2), ("actual_duration", v3),
       ("fuzzing_time_percent", v4)] =
      setStat (setStat (setStat (setStat m "timeout_limit" v1)
        "expected_duration" v2) "actual_duration" v3)
        "fuzzing_time_percent" v4 := rfl
  rw [hu]
  refine ⟨?_, ?_, ?_, ?_⟩
  · rw [lookupStat_setStat_ne _ _ _ _ (by decide),
      lookupStat_setStat_ne _ _ _ _ (by decide),
      lookupStat_setStat_ne _ _ _ _ (by decide)]
    exact lookupStat_setStat _ _ _
  · rw [lookupStat_setStat_ne _ _ _ _ (by decide),
      lookupStat_setStat_ne _ _ _ _ (by decide)]
    exact lookupStat_setStat _ _ _
  · rw [lookupStat_setStat_ne _ _ _ _ (by decide)]
    exact lookupStat_setStat _ _ _
  · exact lookupStat_setStat _ _ _

theorem getFlag_none_of_absent (args : List String) (name : String)
    (h : ∀ a ∈ args, strStartsWith a ("-" ++ name ++ "=") = false) :
    getFlagStr args name = none := by
  unfold getFlagStr
  have hfm : args.filterMap (fun a =>
      if strStartsWith a ("-" ++ name ++ "=") then
        some (strDropChars a ("-" ++ name ++ "=").length)
      else none) = [] := by
    induction args with
    | nil => rfl
    | cons a as ih =>
      have ha := h a (List.mem_cons_self _ _)
      rw [List.filterMap_cons]
      rw [ha]
      exact ih (fun x hx => h x (List.mem_cons_of_mem _ hx))
  rw [hfm]
  rfl

theorem Time.percentOf_toRat (ad : Int) (t : Time) (h : 0 < t.toRat) :
    (Time.percentOf ad t).toRat = 100 * (ad : Rat) / t.toRat := by
  have hn : 0 < t.num := by
    by_contra hcon
    push_neg at hcon
    have h1 : ((t.num : Int) : Rat) ≤ 0 := by exact_mod_cast hcon
    have h2 := div_nonpos_of_nonpos_of_nonneg h1 (le_of_lt (Time.den_pos t))
    unfold Time.toRat at h
    exact absurd (lt_of_lt_of_le h h2) (lt_irrefl 0)
  have hden : ((Time.percentOf ad t).den : Int) = t.num := by
    unfold Time.percentOf Time.den
    dsimp only
    rw [Int.toNat_of_nonneg (by omega)]
    omega
  have hnum : (Time.percentOf ad t).num = 100 * ad * t.den := rfl
  unfold Time.toRat
  rw [hden, hnum]
  have hd := Time.den_pos t
  have hnR : (0 : Rat) < ((t.num : Int) : Rat) := by exact_mod_cast hn
  have hd0 : ((t.den : Int) : Rat) ≠ 0 := ne_of_gt hd
  have hn0 : ((t.num : Int) : Rat) ≠ 0 := ne_of_gt hnR
  field_simp
  try ring

/-- Claim C10: when no `-timeout=` flag occurs in the argument list (and
the budget is positive, which the Python float division needs), the
returned fuzz stats always contain the key `timeout_limit` with value
`None`, and the three duration statistics are numeric: `expected_duration`
is the truncated budget, `actual_duration` is the runner elapsed time
truncated toward zero, and `fuzzing_time_percent` is
`100 * actual_duration / max_time` (final conjunct, via the rational
value of `Time.percentOf`). -/
theorem fuzz_duration_stats (ext : EngineExt) (s : EngineState)
    (target_bytes : Option (List Char)) (options : LibFuzzerOptions)
    (reproducers_dir : String) (max_time : Time)
    (hpos : max_time.pos = true)
    (hflag : ∀ a ∈ options.arguments, strStartsWith a "-timeout=" = false) :
    lookupStat (fuzz ext s target_bytes options reproducers_dir max_time).1.stats
      "timeout_limit" = some .vnone ∧
    lookupStat (fuzz ext s target_bytes options reproducers_dir max_time).1.stats
      "expected_duration" = some (.int max_time.trunc) ∧
    lookupStat (fuzz ext s target_bytes options reproducers_dir max_time).1.stats
      "actual_duration" = some (.int (ext.runnerFuzz
        (fuzz_call ext options reproducers_dir max_time)).time_executed.trunc) ∧
    lookupStat (fuzz ext s target_bytes options reproducers_dir max_time).1.stats
      "fuzzing_time_percent" = some (.num (Time.percentOf (ext.runnerFuzz
        (fuzz_call ext options reproducers_dir max_time)).time_executed.trunc
        max_time)) ∧
    (Time.percentOf (ext.runnerFuzz
        (fuzz_call ext options reproducers_dir max_time)).time_executed.trunc
        max_time).toRat =
      100 * (((ext.runnerFuzz (fuzz_call ext options reproducers_dir
        max_time)).time_executed.trunc : Int) : Rat) / max_time.toRat := by
  have hto : getFlagInt options.arguments TIMEOUT_FLAGNAME = none := by
    unfold getFlagInt
    rw [getFlag_none_of_absent]
    · rfl
    · intro a ha
      rw [show ("-" ++ TIMEOUT_FLAGNAME ++ "=" : String) = "-timeout=" from rfl]
      exact hflag a ha
  have hstats : ∀ k : String, ¬ k = "new_units_added" →
      ¬ k = "initial_edge_coverage" → ¬ k = "initial_feature_coverage" →
      ¬ k = "edge_coverage" → ¬ k = "feature_coverage" → ¬ k = "new_edges" →
      ¬ k = "new_features" →
      lookupStat (fuzz ext s target_bytes options reproducers_dir
          max_time).1.stats k =
      lookupStat (updateStats
        (updateStats
          (ext.parse_log_stats (fuzz_lines ext options reproducers_dir max_time))
          (ext.parse_performance_features
            (fuzz_lines ext options reproducers_dir max_time)
            options.strategies options.arguments))
        [("timeout_limit",
            match getFlagInt options.arguments TIMEOUT_FLAGNAME with
            | some z => .int z
            | none => .vnone),
         ("expected_duration", .int max_time.trunc),
         ("actual_duration", .int (ext.runnerFuzz
            (fuzz_call ext options reproducers_dir max_time)).time_executed.trunc),
         ("fuzzing_time_percent", .num (Time.percentOf
            (ext.runnerFuzz
              (fuzz_call ext options reproducers_dir max_time)).time_executed.trunc
            max_time))]) k := by
    intro k h1 h2 h3 h4 h5 h6 h7
    cases hmb : options.merge_back_new_testcases with
    | false =>
      have hfz : (fuzz ext s target_bytes options reproducers_dir
          max_time).1.stats = updateStats
          (updateStats
            (ext.parse_log_stats (fuzz_lines ext options reproducers_dir max_time))
            (ext.parse_performance_features
              (fuzz_lines ext options reproducers_dir max_time)
              options.strategies options.arguments))
          [("timeout_limit",
              match getFlagInt options.arguments TIMEOUT_FLAGNAME with
              | some z => .int z
              | none => .vnone),
           ("expected_duration", .int max_time.trunc),
           ("actual_duration", .int (ext.runnerFuzz
              (fuzz_call ext options reproducers_dir max_time)).time_executed.trunc),
           ("fuzzing_time_percent", .num (Time.percentOf
              (ext.runnerFuzz
                (fuzz_call ext options reproducers_dir max_time)).time_executed.trunc
              max_time))] := by
        unfold fuzz
        rw [hmb]
        rfl
      rw [hfz]
    | true =>
      have hfz : (fuzz ext s target_bytes options reproducers_dir
          max_time).1.stats = (merge_new_units ext s target_bytes
          options.corpus_dir (tempFuzzingDir ext "new") options.fuzz_corpus_dirs
          (ext.strip_fuzzing_arguments options.arguments true)
          (updateStats
            (updateStats
              (ext.parse_log_stats (fuzz_lines ext options reproducers_dir max_time))
              (ext.parse_performance_features
                (fuzz_lines ext options reproducers_dir max_time)
                options.strategies options.arguments))
            [("timeout_limit",
                match getFlagInt options.arguments TIMEOUT_FLAGNAME with
                | some z => .int z
                | none => .vnone),
             ("expected_duration", .int max_time.trunc),
             ("actual_duration", .int (ext.runnerFuzz
                (fuzz_call ext options reproducers_dir max_time)).time_executed.trunc),
             ("fuzzing_time_percent", .num (Time.percentOf
                (ext.runnerFuzz
                  (fuzz_call ext options reproducers_dir max_time)).time_executed.trunc
                max_time))])).1 := by
        unfold fuzz
        rw [hmb]
        rfl
      rw [hfz]
      exact merge_new_units_preserves ext s target_bytes options.corpus_dir
        (tempFuzzingDir ext "new") options.fuzz_corpus_dirs
        (ext.strip_fuzzing_arguments options.arguments true) _ k
        h1 h2 h3 h4 h5 h6 h7
  refine ⟨?_, ?_, ?_, ?_,
    Time.percentOf_toRat _ _ ((Time.pos_iff max_time).mp hpos)⟩
  · rw [hstats "timeout_limit" (by decide) (by decide) (by decide) (by decide)
      (by decide) (by decide) (by decide), hto]
    exact (lookupStat_update_four _ _ _ _ _).1
  · rw [hstats "expected_duration" (by decide) (by decide) (by decide) (by decide)
      (by decide) (by decide) (by decide), hto]
    exact (lookupStat_update_four _ _ _ _ _).2.1
  · rw [hstats "actual_duration" (by decide) (by decide) (by decide) (by decide)
      (by decide) (by decide) (by decide), hto]
    exact (lookupStat_update_four _ _ _ _ _).2.2.1
  · rw [hstats "fuzzing_time_percent" (by decide) (by decide) (by decide)
      (by decide) (by decide) (by decide) (by decide), hto]
    exact (lookupStat_update_four _ _ _ _ _).2.2.2

/-- Witness for C10: a concrete fuzz run without a `-timeout=` flag. -/
theorem fuzz_duration_stats_witness :
    lookupStat (fuzz extBase ⟨none⟩ targetPlain optsMB "rep"
        (Time.ofInt 10)).1.stats "timeout_limit" = some .vnone ∧
    lookupStat (fuzz extBase ⟨none⟩ targetPlain optsMB "rep"
        (Time.ofInt 10)).1.stats "expected_duration" =
      some (.int (Time.ofInt 10).trunc) ∧
    lookupStat (fuzz extBase ⟨none⟩ targetPlain optsMB "rep"
        (Time.ofInt 10)).1.stats "actual_duration" =
      some (.int (extBase.runnerFuzz
        (fuzz_call extBase optsMB "rep" (Time.ofInt 10))).time_executed.trunc) ∧
    lookupStat (fuzz extBase ⟨none⟩ targetPlain optsMB "rep"
        (Time.ofInt 10)).1.stats "fuzzing_time_percent" =
      some (.num (Time.percentOf (extBase.runnerFuzz
        (fuzz_call extBase optsMB "rep" (Time.ofInt 10))).time_executed.trunc
        (Time.ofInt 10))) ∧
    (Time.percentOf (extBase.runnerFuzz
        (fuzz_call extBase optsMB "rep" (Time.ofInt 10))).time_executed.trunc
        (Time.ofInt 10)).toRat =
      100 * (((extBase.runnerFuzz (fuzz_call extBase optsMB "rep"
        (Time.ofInt 10))).time_executed.trunc : Int) : Rat) /
        (Time.ofInt 10).toRat :=
  fuzz_duration_stats extBase ⟨none⟩ targetPlain optsMB "rep" (Time.ofInt 10)
    (by decide) (by decide)
